import Mathlib

/-!
Verification development for the LandingForge repository.

The repository ships a Next.js web UI (URL input form, export button, API
client and page glue) under src/web and src/unnamed.  The Design Pattern
Extraction Engine described by the specification (renderer, style sampler,
palette extractor, typography extractor, layout classifier, consensus
merger) is invoked through the /api backend and its code is not part of the
source tree here; those components are modelled from the specification, as
marked on each definition.

Strings are embedded as lists of characters (`Str`).  Weights are natural
numbers (element counts / rendered area), font sizes are integer pixel
values, and the W3C relative-luminance and contrast computations are carried
out on a fixed-point integer scale (denominator 2550000) inside the
executable code, with rational-valued specification functions `luminance`
and `contrastRatio` connected to them by bridging lemmas.
-/

namespace LandingForge

/-- Strings of the embedded program: lists of characters. -/
abbrev Str := List Char

/-- Boolean test that `p` is an initial segment of `s` (JS `String.startsWith`). -/
def startsWithStr : Str → Str → Bool
  | [], _ => true
  | _ :: _, [] => false
  | p :: ps, c :: cs => p == c && startsWithStr ps cs

/-- JS whitespace test used by `String.trim`. -/
def isWsChar (c : Char) : Bool := c.isWhitespace

/-- A string is blank when `trim` would reduce it to the empty string,
i.e. it consists of whitespace only. -/
def isBlank (s : Str) : Bool := s.all isWsChar

/-! ## ExportButton.tsx: sanitizeFilename -/

/-- Characters kept by the regex class `[a-z0-9]` of `sanitizeFilename`. -/
def isKeepChar (c : Char) : Bool := ('a' ≤ c && c ≤ 'z') || ('0' ≤ c && c ≤ '9')

/-- One step of `replace(/[^a-z0-9]+/g, "-")`: every character outside the
class is replaced by a hyphen. -/
def repChar (c : Char) : Char := if isKeepChar c then c else '-'

/-- Collapse adjacent hyphens to one, completing the semantics of replacing
each maximal run matched by `[^a-z0-9]+` with a single hyphen. -/
def squeezeHyphens : Str → Str
  | [] => []
  | [c] => [c]
  | a :: b :: rest =>
    if a = '-' && b = '-' then squeezeHyphens (b :: rest)
    else a :: squeezeHyphens (b :: rest)

/-- Drop a single leading hyphen, as one alternative of `replace(/^-|-$/g, "")`. -/
def dropEdgeHyphen : Str → Str
  | [] => []
  | a :: rest => if a = '-' then rest else a :: rest

/-- Apply `replace(/^-|-$/g, "")`: remove one leading and one trailing hyphen. -/
def stripHyphens (l : Str) : Str :=
  (dropEdgeHyphen ((dropEdgeHyphen l).reverse)).reverse

/-- Fallback file name of `sanitizeFilename` (`|| "landing-page"`). -/
def fallbackFilename : Str := "landing-page".toList

/-- Model of `sanitizeFilename` from src/web/src/components/ExportButton.tsx:
lower-case the input, replace every maximal run of characters outside
`[a-z0-9]` by a single hyphen, strip one hyphen from each end, and fall back
to `"landing-page"` when the result is empty. -/
def sanitizeFilename (name : Str) : Str :=
  let core := stripHyphens (squeezeHyphens ((name.map Char.toLower).map repChar))
  if core = [] then fallbackFilename else core

/-! ## UrlInput.tsx -/

/-- Initial component state: a single empty URL field. -/
def initUrls : List Str := [[]]

/-- Model of `addUrl`: append an empty entry only while fewer than five
entries exist. -/
def addUrl (urls : List Str) : List Str :=
  if urls.length < 5 then urls ++ [[]] else urls

/-- Model of `removeUrl`: delete the entry at index `i`, but only while more
than one entry exists. -/
def removeUrl (urls : List Str) (i : Nat) : List Str :=
  if 1 < urls.length then urls.eraseIdx i else urls

/-- Model of `updateUrl`: overwrite the entry at index `i`. -/
def updateUrl (urls : List Str) (i : Nat) (v : Str) : List Str :=
  urls.set i v

/-- Model of the example-site buttons: fill the first blank entry, or append
the site while fewer than five entries exist. -/
def exampleClick (urls : List Str) (site : Str) : List Str :=
  match urls.findIdx? isBlank with
  | some i => urls.set i site
  | none => if urls.length < 5 then urls ++ [site] else urls

/-- States of the URL list reachable through the component event handlers. -/
inductive UrlsState : List Str → Prop
  | init : UrlsState initUrls
  | add {s} : UrlsState s → UrlsState (addUrl s)
  | remove {s} (i : Nat) : UrlsState s → UrlsState (removeUrl s i)
  | update {s} (i : Nat) (v : Str) : UrlsState s → UrlsState (updateUrl s i v)
  | exampleFill {s} (site : Str) : UrlsState s → UrlsState (exampleClick s site)

/-- The scheme constant `"http://"`. -/
def httpScheme : Str := "http://".toList

/-- The scheme constant `"https://"`. -/
def httpsScheme : Str := "https://".toList

/-- Model of the URL normalization inside `handleSubmit`: keep entries that
already carry an http or https scheme, otherwise prepend `"https://"`. -/
def normalizeUrl (u : Str) : Str :=
  if startsWithStr httpScheme u || startsWithStr httpsScheme u then u
  else httpsScheme ++ u

/-- Model of `handleSubmit`: keep the non-blank entries; submit their
normalized forms when at least one remains, otherwise do nothing. -/
def handleSubmit (urls : List Str) : Option (List Str) :=
  if urls.filter (fun u => !(isBlank u)) = [] then none
  else some ((urls.filter (fun u => !(isBlank u))).map normalizeUrl)

/-! ## Colors and the Palette Extractor -/

/-- An sRGB color with 8-bit channels, the canonical color value of the
engine (src/lib/api.ts renders palette entries as hex strings). -/
structure Color where
  r : Fin 256
  g : Fin 256
  b : Fin 256
deriving DecidableEq

/-- Pure black, one of the two contrast fallback colors. -/
def blackColor : Color := ⟨0, 0, 0⟩

/-- Pure white, the other contrast fallback color. -/
def whiteColor : Color := ⟨255, 255, 255⟩

/-- Hex digit for a value below 16, lower case. -/
def hexDigitChar (n : Nat) : Char :=
  if n < 10 then Char.ofNat (48 + n) else Char.ofNat (87 + n)

/-- Two lower-case hex digits of one 8-bit channel. -/
def byteHex (v : Fin 256) : Str := [hexDigitChar (v.val / 16), hexDigitChar (v.val % 16)]

/-- Render a color as a `#rrggbb` hex string. -/
def toHex (c : Color) : Str := '#' :: (byteHex c.r ++ byteHex c.g ++ byteHex c.b)

/-- Hex digit recognizer (lower case). -/
def isHexDigit (c : Char) : Bool := ('0' ≤ c && c ≤ '9') || ('a' ≤ c && c ≤ 'f')

/-- A valid hex color string: a `#` followed by exactly six hex digits. -/
def isValidHexColor : Str → Bool
  | [] => false
  | c :: rest => c == '#' && rest.length == 6 && rest.all isHexDigit

/-- Modelled from the spec (§3, §4.2): the structural tag attached to a color
sample — the role the element played when the sample was taken.  The
accent-like interactive elements (buttons, links) are the `interactive` tag. -/
inductive Tag
  | text
  | background
  | border
  | interactive
deriving DecidableEq

/-- Modelled from the spec (§3): a color sample with its canonical color, a
weight (number of elements / rendered area observed) and a structural tag. -/
structure ColorSample where
  color : Color
  weight : Nat
  tag : Tag
deriving DecidableEq

/-- Modelled from the spec (§4.3 step 1): a quantization cluster.  The
representative color is the first-seen member; weights are recorded in total
and per structural tag so role assignment can consult them. -/
structure Cluster where
  color : Color
  wTotal : Nat
  wText : Nat
  wBg : Nat
  wInter : Nat
deriving DecidableEq

/-- Squared euclidean RGB distance, the pinned perceptual distance function
used for quantization. -/
def colorDistSq (a b : Color) : Int :=
  ((a.r.val : Int) - (b.r.val : Int)) ^ 2
    + ((a.g.val : Int) - (b.g.val : Int)) ^ 2
    + ((a.b.val : Int) - (b.b.val : Int)) ^ 2

/-- Pinned quantization threshold: colors whose squared RGB distance is at
most this value fall into one cluster (distance 30 of 255 per axis). -/
def quantizeThresholdSq : Int := 900

/-- Weight a sample contributes to the bucket of tag `t`. -/
def tagWeight (t : Tag) (s : ColorSample) : Nat :=
  if s.tag = t then s.weight else 0

/-- Start a new cluster from a sample. -/
def newCluster (s : ColorSample) : Cluster :=
  { color := s.color
  , wTotal := s.weight
  , wText := tagWeight .text s
  , wBg := tagWeight .background s
  , wInter := tagWeight .interactive s }

/-- Merge a sample into an existing cluster, summing weights. -/
def bumpCluster (c : Cluster) (s : ColorSample) : Cluster :=
  { color := c.color
  , wTotal := c.wTotal + s.weight
  , wText := c.wText + tagWeight .text s
  , wBg := c.wBg + tagWeight .background s
  , wInter := c.wInter + tagWeight .interactive s }

/-- Modelled from the spec (§4.3 step 1): place a sample into the first
cluster within the distance threshold, or open a new cluster; first-seen
order of clusters is preserved, which realizes the tie-break policy. -/
def addSample : List Cluster → ColorSample → List Cluster
  | [], s => [newCluster s]
  | c :: rest, s =>
    if colorDistSq c.color s.color ≤ quantizeThresholdSq then bumpCluster c s :: rest
    else c :: addSample rest s

/-- Quantize a weighted sample list into clusters, in document order. -/
def clusterSamples (samples : List ColorSample) : List Cluster :=
  samples.foldl addSample []

/-- First element attaining the maximal score; earlier elements win ties,
realizing the first-seen tie-break of §4.3. -/
def bestBy {α : Type} (score : α → Nat) : List α → Option α
  | [] => none
  | x :: rest =>
    match bestBy score rest with
    | none => some x
    | some y => if score x < score y then some y else some x

/-- W3C-style relative luminance of a color on a fixed-point scale with
denominator 2550000, so that 0 is black and 2550000 is white.  The
coefficients 0.2126 / 0.7152 / 0.0722 are the W3C ones; all engine decisions
compare these integers, never floating-point values. -/
def lumScaled (c : Color) : Nat :=
  2126 * c.r.val + 7152 * c.g.val + 722 * c.b.val

/-- Decision procedure for `contrastRatio a b ≥ 4.5` (the pinned minimum),
computed by cross-multiplication on the luminance scale: the W3C contrast
ratio is `(maxL + 0.05) / (minL + 0.05)` and `0.05 ⬝ 2550000 = 127500`. -/
def contrastGeMin (a b : Color) : Bool :=
  9 * (min (lumScaled a) (lumScaled b) + 127500)
    ≤ 2 * (max (lumScaled a) (lumScaled b) + 127500)

/-- Modelled from the spec (§4.3 step 3): when no sampled text color has
sufficient contrast against the background, fall back to pure black or pure
white, whichever contrasts better.  Black wins exactly when
`(L + 0.05) / 0.05 ≥ 1.05 / (L + 0.05)`, i.e. `(L + 127500)² ≥ 127500 ⬝ 2677500`
on the fixed-point scale. -/
def bwFallback (bg : Color) : Color :=
  if 127500 * 2677500 ≤ (lumScaled bg + 127500) * (lumScaled bg + 127500) then blackColor
  else whiteColor

/-- Fallback default used when a page offers no background sample. -/
def defaultBackground : Color := whiteColor

/-- Fallback default used when no primary color can be inferred. -/
def defaultPrimary : Color := ⟨51, 102, 255⟩

/-- Modelled from the spec (§4.3): the background role is the highest-weight
cluster carrying background-tagged weight, with the fallback default when no
such sample exists. -/
def chooseBackground (cs : List Cluster) : Color :=
  match bestBy (·.wBg) (cs.filter (fun c => decide (0 < c.wBg))) with
  | some c => c.color
  | none => defaultBackground

/-- Modelled from the spec (§4.3): the text role is the highest-weight
text-tagged cluster with sufficient contrast against the chosen background;
when none qualifies, the black/white fallback applies. -/
def chooseText (cs : List Cluster) (bg : Color) : Color :=
  match bestBy (·.wText) (cs.filter (fun c => decide (0 < c.wText) && contrastGeMin c.color bg)) with
  | some c => c.color
  | none => bwFallback bg

/-- Modelled from the spec (§4.3): the primary role is the highest-weight
cluster on interactive elements distinct from background and text, else the
highest-weight remaining cluster overall, else the fallback default. -/
def choosePrimary (cs : List Cluster) (bg tx : Color) : Color :=
  match bestBy (·.wInter)
      (cs.filter (fun c => decide (0 < c.wInter) && decide (c.color ≠ bg) && decide (c.color ≠ tx))) with
  | some c => c.color
  | none =>
    match bestBy (·.wTotal) (cs.filter (fun c => decide (c.color ≠ bg) && decide (c.color ≠ tx))) with
    | some c => c.color
    | none => defaultPrimary

/-- Modelled from the spec (§4.3): the secondary role is the next
highest-weight cluster distinct from primary, background and text, else it
reuses primary (degenerate single-color policy). -/
def chooseSecondary (cs : List Cluster) (bg tx pr : Color) : Color :=
  match bestBy (·.wTotal)
      (cs.filter (fun c => decide (c.color ≠ bg) && decide (c.color ≠ tx) && decide (c.color ≠ pr))) with
  | some c => c.color
  | none => pr

/-- Hue of a color in integer degrees (0..359), computed with the standard
max/min formula and integer division; achromatic colors report hue 0. -/
def hueDegrees (c : Color) : Int :=
  let r : Int := c.r.val
  let g : Int := c.g.val
  let b : Int := c.b.val
  let mx := max r (max g b)
  let mn := min r (min g b)
  let d := mx - mn
  if d = 0 then 0
  else
    let h :=
      if mx = r then (60 * (g - b)) / d
      else if mx = g then (60 * (b - r)) / d + 120
      else (60 * (r - g)) / d + 240
    if h < 0 then h + 360 else h

/-- Circular hue distance in degrees. -/
def hueDist (a b : Color) : Int :=
  let d := |hueDegrees a - hueDegrees b|
  min d (360 - d)

/-- Pinned hue-difference threshold for the accent role. -/
def accentHueThreshold : Int := 60

/-- Modelled from the spec (§4.3): the accent role is a cluster chromatically
distant from primary (hue difference above the threshold) with non-trivial
weight, else primary is reused (documented conservative fallback). -/
def chooseAccent (cs : List Cluster) (pr : Color) : Color :=
  match bestBy (·.wTotal)
      (cs.filter (fun c => decide (0 < c.wTotal) && decide (accentHueThreshold ≤ hueDist c.color pr))) with
  | some c => c.color
  | none => pr

/-- The five semantic color roles of the engine (interface `ColorPalette` of
src/lib/api.ts; the spec data model keeps one color value per role). -/
structure ColorPalette where
  primary : Color
  secondary : Color
  accent : Color
  background : Color
  text : Color
deriving DecidableEq

/-- Assign all five roles from the quantized clusters of one site. -/
def assignRoles (cs : List Cluster) : ColorPalette :=
  { background := chooseBackground cs
  , text := chooseText cs (chooseBackground cs)
  , primary := choosePrimary cs (chooseBackground cs) (chooseText cs (chooseBackground cs))
  , secondary :=
      chooseSecondary cs (chooseBackground cs) (chooseText cs (chooseBackground cs))
        (choosePrimary cs (chooseBackground cs) (chooseText cs (chooseBackground cs)))
  , accent :=
      chooseAccent cs
        (choosePrimary cs (chooseBackground cs) (chooseText cs (chooseBackground cs))) }

/-- Modelled from the spec (§4.3): the Palette Extractor — quantize the
weighted samples of one site and assign the five semantic roles. -/
def extractPalette (samples : List ColorSample) : ColorPalette :=
  assignRoles (clusterSamples samples)

/-- All five role strings of a palette are valid hex color strings. -/
def validPaletteHex (p : ColorPalette) : Prop :=
  isValidHexColor (toHex p.primary) = true
    ∧ isValidHexColor (toHex p.secondary) = true
    ∧ isValidHexColor (toHex p.accent) = true
    ∧ isValidHexColor (toHex p.background) = true
    ∧ isValidHexColor (toHex p.text) = true

/-- Specification-level W3C relative luminance as a rational in `[0, 1]`. -/
def luminance (c : Color) : ℚ := (lumScaled c : ℚ) / 2550000

/-- Specification-level W3C contrast ratio `(maxL + 0.05) / (minL + 0.05)`. -/
def contrastRatio (a b : Color) : ℚ :=
  (max (luminance a) (luminance b) + 1 / 20) / (min (luminance a) (luminance b) + 1 / 20)

/-- The pinned minimum contrast ratio between text and background (WCAG AA). -/
def minContrast : ℚ := 9 / 2

/-- Majority vote over arbitrary values with the first-holder tie-break of
§4.6: the winning value is the one held by the earliest element among those
with maximal multiplicity. -/
def voteFirst {α : Type} [DecidableEq α] (l : List α) : Option α :=
  bestBy (fun a => l.count a) l

/-- Modelled from the spec (§4.6): merge per-site palettes role by role by
majority vote with the first-site tie-break. -/
def mergePalettes (ps : List ColorPalette) : ColorPalette :=
  { primary := (voteFirst (ps.map (·.primary))).getD defaultPrimary
  , secondary := (voteFirst (ps.map (·.secondary))).getD defaultPrimary
  , accent := (voteFirst (ps.map (·.accent))).getD defaultPrimary
  , background := (voteFirst (ps.map (·.background))).getD defaultBackground
  , text := (voteFirst (ps.map (·.text))).getD blackColor }

/-! ## Typography Extractor -/

/-- Modelled from the spec (§3, §4.2): one font observation — the first
resolvable family name of the stack and the rendered size in integer
pixels. -/
structure FontSample where
  family : Str
  size : Int
deriving DecidableEq

/-- Insert a size into a descending-sorted list. -/
def insertDesc (x : Int) : List Int → List Int
  | [] => [x]
  | y :: rest => if y ≤ x then x :: y :: rest else y :: insertDesc x rest

/-- Insertion sort, largest first. -/
def sortDesc : List Int → List Int
  | [] => []
  | x :: rest => insertDesc x (sortDesc rest)

/-- Walk a descending list dropping every size within the 1px tolerance of
the last kept size. -/
def dedupTolAux : Int → List Int → List Int
  | _, [] => []
  | last, y :: rest =>
    if last - y ≤ 1 then dedupTolAux last rest else y :: dedupTolAux y rest

/-- Deduplicate a descending size list within the ~1px tolerance of §4.4:
sizes within 1px of the last kept size are treated as equal and dropped. -/
def dedupTol : List Int → List Int
  | [] => []
  | x :: rest => x :: dedupTolAux x rest

/-- Distinct heading sizes of a pool, largest first, 1px tolerance. -/
def headingSizesOf (pool : List FontSample) : List Int :=
  dedupTol (sortDesc (pool.map (·.size)))

/-- Fallback scale applied when a pool yields no sizes at all, keeping the
non-empty invariant of §3 (error recovery policy of §7). -/
def defaultHeadingSizes : List Int := [48, 32, 24]

/-- Guard realizing the fallback of `defaultHeadingSizes`. -/
def headingSizesOrDefault (l : List Int) : List Int :=
  if l = [] then defaultHeadingSizes else l

/-- Fallback font family name. -/
def defaultFontName : Str := "sans-serif".toList

/-- Fallback body size in pixels. -/
def defaultBodySize : Int := 16

/-- Generic fallback keywords that are ignored while a named family is
present (§4.4). -/
def isGenericFont (f : Str) : Bool := f == "sans-serif".toList || f == "serif".toList

/-- Most frequent resolvable family of a pool: named families win over the
generic keywords, which are used only when no named family is present. -/
def pickFont (pool : List Str) : Str :=
  match voteFirst (pool.filter (fun f => !(isGenericFont f))) with
  | some f => f
  | none => (voteFirst pool).getD defaultFontName

/-- The typography result (interface `Typography` of src/lib/api.ts; sizes
are numeric in the engine model). -/
structure Typography where
  heading_font : Str
  body_font : Str
  heading_sizes : List Int
  body_size : Int
deriving DecidableEq

/-- Modelled from the spec (§4.4): the Typography Extractor over the heading
and body pools of one site. -/
def extractTypography (headingPool bodyPool : List FontSample) : Typography :=
  { heading_font := pickFont (headingPool.map (·.family))
  , body_font := pickFont (bodyPool.map (·.family))
  , heading_sizes := headingSizesOrDefault (headingSizesOf headingPool)
  , body_size := (voteFirst (bodyPool.map (·.size))).getD defaultBodySize }

/-- Modelled from the spec (§4.6): merge per-site typography — fonts by
majority vote with the first-site tie-break, heading sizes as the union
deduplicated within tolerance and sorted descending, body size as the mode. -/
def mergeTypography (ts : List Typography) : Typography :=
  { heading_font := (voteFirst (ts.map (·.heading_font))).getD defaultFontName
  , body_font := (voteFirst (ts.map (·.body_font))).getD defaultFontName
  , heading_sizes := headingSizesOrDefault (dedupTol (sortDesc ((ts.map (·.heading_sizes)).flatten)))
  , body_size := (voteFirst (ts.map (·.body_size))).getD defaultBodySize }

/-! ## Layout Classifier and Consensus Merger -/

/-- The seven independent layout booleans (interface `LayoutPattern` of
src/lib/api.ts). -/
structure LayoutPattern where
  has_hero : Bool
  has_features_grid : Bool
  has_testimonials : Bool
  has_pricing : Bool
  has_cta : Bool
  has_footer : Bool
  is_dark_mode : Bool
deriving DecidableEq

/-- Strict majority over a list of votes: true exactly when more than half
of the votes are true (§4.6). -/
def majorityB (bs : List Bool) : Bool := bs.length < 2 * bs.count true

/-- Modelled from the spec (§4.6): each merged layout boolean is decided by
strict majority over the successfully analyzed sites, independently. -/
def mergeLayout (ls : List LayoutPattern) : LayoutPattern :=
  { has_hero := majorityB (ls.map (·.has_hero))
  , has_features_grid := majorityB (ls.map (·.has_features_grid))
  , has_testimonials := majorityB (ls.map (·.has_testimonials))
  , has_pricing := majorityB (ls.map (·.has_pricing))
  , has_cta := majorityB (ls.map (·.has_cta))
  , has_footer := majorityB (ls.map (·.has_footer))
  , is_dark_mode := majorityB (ls.map (·.is_dark_mode)) }

/-- Pinned dark-mode luminance threshold (1/2 on the fixed-point scale). -/
def darkThresholdScaled : Nat := 1275000

/-- Modelled from the spec (§4.5, §9): the DOM heuristics are independently
testable predicates over a normalized structural description of the page,
so the rendered page model carries their evidence bits directly; the raw
signal pools of §4.2 accompany them. -/
structure PageSignals where
  colorSamples : List ColorSample
  headingPool : List FontSample
  bodyPool : List FontSample
  heroEvidence : Bool
  featuresEvidence : Bool
  testimonialsEvidence : Bool
  pricingEvidence : Bool
  ctaEvidence : Bool
  footerEvidence : Bool
  animations : List Str
deriving DecidableEq

/-- Modelled from the spec (§4.5, §4.3 step 4): the per-site layout
classification; `is_dark_mode` is derived from the relative luminance of the
chosen background color. -/
def classifyLayout (p : PageSignals) (bg : Color) : LayoutPattern :=
  { has_hero := p.heroEvidence
  , has_features_grid := p.featuresEvidence
  , has_testimonials := p.testimonialsEvidence
  , has_pricing := p.pricingEvidence
  , has_cta := p.ctaEvidence
  , has_footer := p.footerEvidence
  , is_dark_mode := lumScaled bg < darkThresholdScaled }

/-- Section names recorded 1:1 for the layout rules that fired (§4.5),
in the fixed rule order of the model. -/
def sectionsOf (lp : LayoutPattern) : List Str :=
  (if lp.has_hero then ["hero".toList] else [])
    ++ (if lp.has_features_grid then ["features".toList] else [])
    ++ (if lp.has_testimonials then ["testimonials".toList] else [])
    ++ (if lp.has_pricing then ["pricing".toList] else [])
    ++ (if lp.has_cta then ["cta".toList] else [])
    ++ (if lp.has_footer then ["footer".toList] else [])

/-- The per-site extraction result fed to the Consensus Merger. -/
structure SiteResult where
  colors : ColorPalette
  typography : Typography
  layout : LayoutPattern
  sections : List Str
  animations : List Str
deriving DecidableEq

/-- Modelled from the spec (§2, §4): run Palette, Typography and Layout
extraction over one rendered page. -/
def analyzeSite (p : PageSignals) : SiteResult :=
  { colors := extractPalette p.colorSamples
  , typography := extractTypography p.headingPool p.bodyPool
  , layout := classifyLayout p (chooseBackground (clusterSamples p.colorSamples))
  , sections := sectionsOf (classifyLayout p (chooseBackground (clusterSamples p.colorSamples)))
  , animations := p.animations }

/-- Union keeping the first occurrence of each element (§4.6 ordering rule
for sections and animations). -/
def dedupFirst {α : Type} [DecidableEq α] (l : List α) : List α :=
  l.foldl (fun acc x => if x ∈ acc then acc else acc ++ [x]) []

/-- The final artifact (interface `DesignAnalysis` of src/lib/api.ts). -/
structure DesignAnalysis where
  colors : ColorPalette
  typography : Typography
  layout : LayoutPattern
  sections : List Str
  animations : List Str
  source_urls : List Str
deriving DecidableEq

/-- Failure reason for an empty batch (§6). -/
def msgNoUrls : Str := "No URLs provided".toList

/-- Failure reason when every URL fails to render: the single human-readable
"no analyzable sources" condition (§4.6, §6, §7). -/
def msgAllFailed : Str := "All URLs failed to render: no analyzable sources".toList

/-- Render every URL through the injected rendering port and keep the
surviving URL/page pairs in input order. -/
def renderBatch (urls : List Str) (render : Str → Option PageSignals) :
    List (Str × PageSignals) :=
  urls.filterMap (fun u => (render u).map (fun p => (u, p)))

/-- Modelled from the spec (§4.6): fold the per-site results of the
surviving URL/page pairs into the final artifact. -/
def buildAnalysis (okPairs : List (Str × PageSignals)) : DesignAnalysis :=
  let sites := okPairs.map (fun up => analyzeSite up.2)
  { colors := mergePalettes (sites.map (·.colors))
  , typography := mergeTypography (sites.map (·.typography))
  , layout := mergeLayout (sites.map (·.layout))
  , sections := dedupFirst ((sites.map (·.sections)).flatten)
  , animations := dedupFirst ((sites.map (·.animations)).flatten)
  , source_urls := okPairs.map (·.1) }

/-- Modelled from the spec (§2, §4.6, §6, §7): the whole engine.  Every URL
is rendered through the injected rendering port; failed URLs are dropped;
with no survivor the batch fails, otherwise the per-site results are merged
into one `DesignAnalysis` whose `source_urls` keeps the surviving URLs in
input order. -/
def analyze (urls : List Str) (render : Str → Option PageSignals) : Except Str DesignAnalysis :=
  if urls = [] then .error msgNoUrls
  else if renderBatch urls render = [] then .error msgAllFailed
  else .ok (buildAnalysis (renderBatch urls render))

/-! ## Byte-level serialization of the result -/

/-- Decimal digits of a natural number. -/
def natChars (n : Nat) : Str := Nat.toDigits 10 n

/-- Decimal rendering of an integer. -/
def intChars (i : Int) : Str :=
  if i < 0 then '-' :: natChars i.natAbs else natChars i.natAbs

/-- Concatenate strings with a separator byte. -/
def joinChars (l : List Str) : Str := (l.map (fun s => s ++ [';'])).flatten

/-- Byte rendering of one boolean. -/
def boolChar (b : Bool) : Char := if b then 'T' else 'F'

/-- Byte serialization of a palette. -/
def serializePalette (p : ColorPalette) : Str :=
  joinChars [toHex p.primary, toHex p.secondary, toHex p.accent, toHex p.background, toHex p.text]

/-- Byte serialization of a typography result. -/
def serializeTypography (t : Typography) : Str :=
  joinChars ([t.heading_font, t.body_font] ++ t.heading_sizes.map intChars ++ [intChars t.body_size])

/-- Byte serialization of the layout booleans. -/
def serializeLayout (lp : LayoutPattern) : Str :=
  [boolChar lp.has_hero, boolChar lp.has_features_grid, boolChar lp.has_testimonials,
    boolChar lp.has_pricing, boolChar lp.has_cta, boolChar lp.has_footer, boolChar lp.is_dark_mode]

/-- Byte serialization of a whole `DesignAnalysis`. -/
def serializeDesign (da : DesignAnalysis) : Str :=
  serializePalette da.colors ++ ['|'] ++ serializeTypography da.typography ++ ['|']
    ++ serializeLayout da.layout ++ ['|'] ++ joinChars da.sections ++ ['|']
    ++ joinChars da.animations ++ ['|'] ++ joinChars da.source_urls

/-- Byte serialization of an engine outcome. -/
def serializeResult : Except Str DesignAnalysis → Str
  | .error m => "error:".toList ++ m
  | .ok da => "ok:".toList ++ serializeDesign da

/-! ## API client (src/lib/api.ts) -/

/-- Parsed JSON body of a backend response, with the fields the client
reads: `detail` and `message` on failures, `design_analysis` on success. -/
structure ResponseBody where
  detail : Option Str
  message : Option Str
  design_analysis : Option DesignAnalysis
deriving DecidableEq

/-- A fetch response as the client observes it: the ok flag, HTTP status,
status text, and the JSON body when `response.json()` succeeds. -/
structure ApiResponse where
  ok : Bool
  status : Nat
  statusText : Str
  body : Option ResponseBody
deriving DecidableEq

/-- Errors the client can throw: an `ApiError` carrying a message and the
HTTP status, or a JSON parse failure on a successful response. -/
inductive ClientError
  | api (message : Str) (status : Nat)
  | parseFailure
deriving DecidableEq

/-- The generic message the client starts from (`"An error occurred"`). -/
def defaultErrorMessage : Str := "An error occurred".toList

/-- JS `a || b` over an optional string field: absent and empty values are
falsy and fall through to `b`. -/
def jsOrElse (a : Option Str) (b : Str) : Str :=
  match a with
  | some s => if s = [] then b else s
  | none => b

/-- Model of `handleResponse` from src/lib/api.ts: a non-ok response throws
an `ApiError` whose message is `data.detail || data.message || "An error
occurred"` when the body parses as JSON and the status text otherwise; an ok
response yields its parsed body. -/
def handleResponse (r : ApiResponse) : Except ClientError ResponseBody :=
  if r.ok then
    match r.body with
    | some data => .ok data
    | none => .error .parseFailure
  else
    .error (.api
      (match r.body with
        | some data => jsOrElse data.detail (jsOrElse data.message defaultErrorMessage)
        | none => r.statusText)
      r.status)

/-- Model of `analyzeUrls` from src/lib/api.ts, from the response on: pass
the response through `handleResponse` and return its `design_analysis`
field. -/
def analyzeUrls (r : ApiResponse) : Except ClientError (Option DesignAnalysis) :=
  (handleResponse r).map (·.design_analysis)

/-! ## Concrete evaluation fixtures -/

/-- A rendered page with no detected signal at all: every extractor falls
back to its documented default on it. -/
def pageEmpty : PageSignals :=
  { colorSamples := []
  , headingPool := []
  , bodyPool := []
  , heroEvidence := false
  , featuresEvidence := false
  , testimonialsEvidence := false
  , pricingEvidence := false
  , ctaEvidence := false
  , footerEvidence := false
  , animations := [] }

def urlA : Str := "https://a.example".toList

def urlB : Str := "https://b.example".toList

def urlC : Str := "https://c.example".toList

/-- A three-URL batch. -/
def urlsFixture : List Str := [urlA, urlB, urlC]

/-- A rendering port on which the middle URL fails. -/
def renderFixture (u : Str) : Option PageSignals :=
  if u = urlB then none else some pageEmpty

/-- A second rendering port that agrees with `renderFixture` on the batch
but is a different function. -/
def renderFixtureB (u : Str) : Option PageSignals :=
  if u = urlA ∨ u = urlC then some pageEmpty else none

/-- The analysis produced by the fixture batch. -/
def designFixture : DesignAnalysis :=
  (analyze urlsFixture renderFixture).toOption.getD (buildAnalysis [])

/-- A successful backend response carrying a design analysis. -/
def responseOkFixture : ApiResponse :=
  { ok := true
  , status := 200
  , statusText := "OK".toList
  , body := some { detail := none, message := none, design_analysis := some (buildAnalysis []) } }

/-- A non-ok backend response whose body is valid JSON without `detail` or
`message` fields. -/
def responseBad : ApiResponse :=
  { ok := false
  , status := 502
  , statusText := "Bad Gateway".toList
  , body := some { detail := none, message := none, design_analysis := none } }

/-- All-true layout pattern fixture. -/
def lpAllTrue : LayoutPattern := ⟨true, true, true, true, true, true, true⟩

/-- All-false layout pattern fixture. -/
def lpAllFalse : LayoutPattern := ⟨false, false, false, false, false, false, false⟩

/-! # Theorems -/

/-! ## sanitizeFilename (claim C10) -/

/-- No two adjacent characters of the list are both hyphens. -/
def NoAdjHyphen (l : Str) : Prop :=
  List.Chain' (fun a b => ¬(a = '-' ∧ b = '-')) l

theorem mem_squeezeHyphens {c : Char} : ∀ {l : Str}, c ∈ squeezeHyphens l → c ∈ l := by
  intro l
  induction l with
  | nil => simp [squeezeHyphens]
  | cons a l ih =>
    cases l with
    | nil => simp [squeezeHyphens]
    | cons b rest =>
      simp only [squeezeHyphens]
      split
      · intro h
        exact List.mem_cons_of_mem a (ih h)
      · intro h
        rcases List.mem_cons.1 h with h | h
        · exact h ▸ List.mem_cons_self a _
        · exact List.mem_cons_of_mem a (ih h)

theorem head_squeezeHyphens_of_ne {b : Char} (hb : b ≠ '-') (rest : Str) :
    (squeezeHyphens (b :: rest)).head? = some b := by
  cases rest with
  | nil => rfl
  | cons c rs =>
    simp only [squeezeHyphens]
    rw [if_neg (by simp [hb])]
    rfl

theorem noAdj_squeezeHyphens : ∀ l : Str, NoAdjHyphen (squeezeHyphens l) := by
  intro l
  induction l with
  | nil => simp [squeezeHyphens, NoAdjHyphen]
  | cons a l ih =>
    cases l with
    | nil => simp [squeezeHyphens, NoAdjHyphen]
    | cons b rest =>
      simp only [squeezeHyphens]
      split
      · exact ih
      · rename_i hcond
        have hnot : ¬(a = '-' ∧ b = '-') := by
          intro ⟨h1, h2⟩
          exact hcond (by simp [h1, h2])
        refine List.chain'_cons'.2 ⟨?_, ih⟩
        intro y hy
        by_cases hb : b = '-'
        · have ha : a ≠ '-' := fun h => hnot ⟨h, hb⟩
          intro ⟨h1, _⟩
          exact ha h1
        · rw [head_squeezeHyphens_of_ne hb rest] at hy
          cases hy
          intro ⟨_, h2⟩
          exact hb h2

theorem mem_dropEdgeHyphen {c : Char} : ∀ {l : Str}, c ∈ dropEdgeHyphen l → c ∈ l := by
  intro l
  cases l with
  | nil => simp [dropEdgeHyphen]
  | cons a rest =>
    simp only [dropEdgeHyphen]
    split
    · exact List.mem_cons_of_mem a
    · exact id

theorem noAdj_dropEdgeHyphen {l : Str} (h : NoAdjHyphen l) : NoAdjHyphen (dropEdgeHyphen l) := by
  cases l with
  | nil => simpa [dropEdgeHyphen] using h
  | cons a rest =>
    simp only [dropEdgeHyphen]
    split
    · exact (List.chain'_cons'.1 h).2
    · exact h

theorem noAdj_reverse {l : Str} (h : NoAdjHyphen l) : NoAdjHyphen l.reverse := by
  refine List.chain'_reverse.2 (h.imp ?_)
  intro a b hab ⟨h1, h2⟩
  exact hab ⟨h2, h1⟩

theorem head_dropEdgeHyphen {l : Str} (h : NoAdjHyphen l) :
    (dropEdgeHyphen l).head? ≠ some '-' := by
  cases l with
  | nil => simp [dropEdgeHyphen]
  | cons a rest =>
    simp only [dropEdgeHyphen]
    split
    · rename_i ha
      cases rest with
      | nil => simp
      | cons b rs =>
        have := (List.chain'_cons'.1 h).1 b rfl
        simp only [List.head?_cons, ne_eq, Option.some.injEq]
        intro hb
        exact this ⟨ha, hb⟩
    · rename_i ha
      simp only [List.head?_cons, ne_eq, Option.some.injEq]
      exact fun hb => ha hb

theorem getLast_dropEdgeHyphen {l : Str} (h : l.getLast? ≠ some '-') :
    (dropEdgeHyphen l).getLast? ≠ some '-' := by
  cases l with
  | nil => simp [dropEdgeHyphen]
  | cons a rest =>
    simp only [dropEdgeHyphen]
    split
    · rename_i ha
      cases rest with
      | nil =>
        exact absurd (by simp [ha]) h
      | cons b rs =>
        rw [List.getLast?_cons_cons] at h
        exact h
    · exact h

theorem stripHyphens_head {l : Str} (h : NoAdjHyphen l) :
    (stripHyphens l).head? ≠ some '-' := by
  unfold stripHyphens
  rw [List.head?_reverse]
  apply getLast_dropEdgeHyphen
  rw [List.getLast?_reverse]
  exact head_dropEdgeHyphen h

theorem stripHyphens_getLast {l : Str} (h : NoAdjHyphen l) :
    (stripHyphens l).getLast? ≠ some '-' := by
  unfold stripHyphens
  rw [List.getLast?_reverse]
  exact head_dropEdgeHyphen (noAdj_reverse (noAdj_dropEdgeHyphen h))

theorem mem_stripHyphens {c : Char} {l : Str} (h : c ∈ stripHyphens l) : c ∈ l := by
  unfold stripHyphens at h
  rw [List.mem_reverse] at h
  have h2 := mem_dropEdgeHyphen h
  rw [List.mem_reverse] at h2
  exact mem_dropEdgeHyphen h2

/-- Claim C10: for every input string, `sanitizeFilename` returns a
non-empty string of lower-case ASCII letters, digits and hyphens, with no
leading or trailing hyphen, and it returns the fallback `"landing-page"`
exactly when the sanitized core of the input is empty. -/
theorem claim10_sanitize_filename (name : Str) :
    sanitizeFilename name ≠ []
      ∧ (∀ c ∈ sanitizeFilename name, isKeepChar c = true ∨ c = '-')
      ∧ (sanitizeFilename name).head? ≠ some '-'
      ∧ (sanitizeFilename name).getLast? ≠ some '-'
      ∧ (stripHyphens (squeezeHyphens ((name.map Char.toLower).map repChar)) = [] →
          sanitizeFilename name = fallbackFilename) := by
  unfold sanitizeFilename
  by_cases hcore : stripHyphens (squeezeHyphens ((name.map Char.toLower).map repChar)) = []
  · rw [if_pos hcore]
    refine ⟨by decide, ?_, by decide, by decide, fun _ => rfl⟩
    have : ∀ c ∈ fallbackFilename, isKeepChar c = true ∨ c = '-' := by decide
    exact this
  · rw [if_neg hcore]
    have hadj := noAdj_squeezeHyphens ((name.map Char.toLower).map repChar)
    refine ⟨hcore, ?_, stripHyphens_head hadj, stripHyphens_getLast hadj, fun h => absurd h hcore⟩
    intro c hc
    have := mem_squeezeHyphens (mem_stripHyphens hc)
    rcases List.mem_map.1 this with ⟨d, _, hd⟩
    by_cases hk : isKeepChar d = true
    · left
      rw [← hd]
      simp [repChar, hk]
    · right
      rw [← hd]
      simp [repChar, hk]

/-- Witness for claim C10 at a concrete input without any alphanumeric
character: the fallback name is returned. -/
theorem claim10_witness : sanitizeFilename "###".toList = fallbackFilename :=
  (claim10_sanitize_filename ("###".toList)).2.2.2.2 (by decide)

/-! ## UrlInput (claims C7 and C9) -/

theorem length_eraseIdx_le {α : Type} : ∀ (l : List α) (i : Nat),
    (l.eraseIdx i).length ≤ l.length := by
  intro l
  induction l with
  | nil => intro i; simp [List.eraseIdx]
  | cons a l ih =>
    intro i
    cases i with
    | zero => simp [List.eraseIdx]
    | succ j =>
      simp only [List.eraseIdx, List.length_cons]
      exact Nat.succ_le_succ (ih j)

theorem length_le_eraseIdx_succ {α : Type} : ∀ (l : List α) (i : Nat),
    l.length ≤ (l.eraseIdx i).length + 1 := by
  intro l
  induction l with
  | nil => intro i; simp [List.eraseIdx]
  | cons a l ih =>
    intro i
    cases i with
    | zero => simp [List.eraseIdx]
    | succ j =>
      simp only [List.eraseIdx, List.length_cons]
      exact Nat.succ_le_succ (ih j)

/-- The component invariant: every reachable URL-list state has between one
and five entries. -/
theorem urlsState_length {s : List Str} (h : UrlsState s) :
    1 ≤ s.length ∧ s.length ≤ 5 := by
  induction h with
  | init => simp [initUrls]
  | @add s h ih =>
    unfold addUrl
    split
    · rename_i hlt
      rw [List.length_append]
      simp only [List.length_cons, List.length_nil]
      omega
    · exact ih
  | @remove s i h ih =>
    unfold removeUrl
    split
    · rename_i hgt
      have h1 := length_eraseIdx_le s i
      have h2 := length_le_eraseIdx_succ s i
      omega
    · exact ih
  | @update s i v h ih =>
    unfold updateUrl
    rw [List.length_set]
    exact ih
  | @exampleFill s site h ih =>
    unfold exampleClick
    cases hf : List.findIdx? isBlank s with
    | some j =>
      rw [List.length_set]
      exact ih
    | none =>
      split
      · rename_i j hj
        simp at hj
      · split
        · rename_i hlt
          rw [List.length_append]
          simp only [List.length_cons, List.length_nil]
          omega
        · exact ih

/-- Claim C7: across every reachable state of the URL input form, a
submission hands `onSubmit` an array of between one and five URLs — the form
never submits an empty list and `addUrl` never grows the list past five. -/
theorem claim7_url_count {s : List Str} (hs : UrlsState s) {out : List Str}
    (h : handleSubmit s = some out) : 1 ≤ out.length ∧ out.length ≤ 5 := by
  unfold handleSubmit at h
  split at h
  · exact absurd h (by simp)
  · rename_i hne
    have hout : out = (s.filter (fun u => !(isBlank u))).map normalizeUrl :=
      (Option.some.injEq _ _ ▸ h).symm
    have hlen : out.length = (s.filter (fun u => !(isBlank u))).length := by
      rw [hout, List.length_map]
    have hpos : 0 < (s.filter (fun u => !(isBlank u))).length :=
      List.length_pos.2 hne
    have hle : (s.filter (fun u => !(isBlank u))).length ≤ s.length :=
      List.length_filter_le _ _
    have := (urlsState_length hs).2
    omega

/-- Witness for claim C7: filling the single initial field and submitting
passes exactly one URL. -/
theorem claim7_witness :
    1 ≤ ([("https://linear.app".toList : Str)] : List Str).length
      ∧ ([("https://linear.app".toList : Str)] : List Str).length ≤ 5 :=
  claim7_url_count
    (UrlsState.update 0 ("linear.app".toList) UrlsState.init) (by decide)

theorem startsWithStr_append (p x : Str) : startsWithStr p (p ++ x) = true := by
  induction p with
  | nil => rfl
  | cons c cs ih => simp [startsWithStr, ih]

/-- Claim C9: every submission passes only URLs carrying an explicit http or
https scheme: non-blank entries are kept (blank ones dropped), entries that
already start with a scheme pass unchanged, and every other entry gets
`https://` prepended. -/
theorem claim9_url_schemes (urls out : List Str) (h : handleSubmit urls = some out) :
    (∀ u ∈ out, startsWithStr httpScheme u = true ∨ startsWithStr httpsScheme u = true)
      ∧ out = (urls.filter (fun u => !(isBlank u))).map normalizeUrl
      ∧ (∀ v : Str,
          (startsWithStr httpScheme v = true ∨ startsWithStr httpsScheme v = true →
            normalizeUrl v = v)
          ∧ (startsWithStr httpScheme v = false → startsWithStr httpsScheme v = false →
            normalizeUrl v = httpsScheme ++ v)) := by
  unfold handleSubmit at h
  split at h
  · exact absurd h (by simp)
  · have hout : out = (urls.filter (fun u => !(isBlank u))).map normalizeUrl :=
      (Option.some.injEq _ _ ▸ h).symm
    refine ⟨?_, hout, ?_⟩
    · intro u hu
      rw [hout] at hu
      rcases List.mem_map.1 hu with ⟨v, _, hv⟩
      rw [← hv]
      unfold normalizeUrl
      split
      · rename_i hcond
        rcases Bool.or_eq_true _ _ ▸ hcond with h1 | h1
        · exact Or.inl h1
        · exact Or.inr h1
      · exact Or.inr (startsWithStr_append _ _)
    · intro v
      constructor
      · intro hv
        unfold normalizeUrl
        rw [if_pos]
        rcases hv with h1 | h1 <;> simp [h1]
      · intro h1 h2
        unfold normalizeUrl
        rw [if_neg]
        simp [h1, h2]

/-- Witness for claim C9 on a concrete submission: a bare domain gets the
https scheme prepended, a blank entry is dropped, an http URL passes
through. -/
theorem claim9_witness :
    (∀ u ∈ [("https://example.com".toList : Str), "http://x.y".toList],
        startsWithStr httpScheme u = true ∨ startsWithStr httpsScheme u = true)
      ∧ ([("https://example.com".toList : Str), "http://x.y".toList]
          = (([("example.com".toList : Str), "   ".toList, "http://x.y".toList]).filter
              (fun u => !(isBlank u))).map normalizeUrl)
      ∧ (∀ v : Str,
          (startsWithStr httpScheme v = true ∨ startsWithStr httpsScheme v = true →
            normalizeUrl v = v)
          ∧ (startsWithStr httpScheme v = false → startsWithStr httpsScheme v = false →
            normalizeUrl v = httpsScheme ++ v)) :=
  claim9_url_schemes
    [("example.com".toList : Str), "   ".toList, "http://x.y".toList]
    [("https://example.com".toList : Str), "http://x.y".toList]
    (by decide)

/-! ## Consensus Merger layout voting (claim C1) -/

theorem majorityB_iff (bs : List Bool) : majorityB bs = true ↔ bs.length < 2 * bs.count true := by
  simp [majorityB]

/-- Claim C1: each of the seven merged layout booleans is true exactly when
a strict majority (more than half) of the per-site values is true; a
disagreeing two-site batch merges to false and a two-of-three batch merges
to true. -/
theorem claim1_consensus_majority :
    (∀ ls : List LayoutPattern,
        ((mergeLayout ls).has_hero = true ↔ ls.length < 2 * ((ls.map (·.has_hero)).count true))
        ∧ ((mergeLayout ls).has_features_grid = true ↔
            ls.length < 2 * ((ls.map (·.has_features_grid)).count true))
        ∧ ((mergeLayout ls).has_testimonials = true ↔
            ls.length < 2 * ((ls.map (·.has_testimonials)).count true))
        ∧ ((mergeLayout ls).has_pricing = true ↔
            ls.length < 2 * ((ls.map (·.has_pricing)).count true))
        ∧ ((mergeLayout ls).has_cta = true ↔ ls.length < 2 * ((ls.map (·.has_cta)).count true))
        ∧ ((mergeLayout ls).has_footer = true ↔
            ls.length < 2 * ((ls.map (·.has_footer)).count true))
        ∧ ((mergeLayout ls).is_dark_mode = true ↔
            ls.length < 2 * ((ls.map (·.is_dark_mode)).count true)))
      ∧ (∀ p q : Bool, p ≠ q → majorityB [p, q] = false)
      ∧ (∀ bs : List Bool, bs.length = 3 → bs.count true = 2 → majorityB bs = true)
      ∧ (∀ a b c : LayoutPattern, a.has_cta = true → b.has_cta = true → c.has_cta = false →
          (mergeLayout [a, b, c]).has_cta = true) := by
  refine ⟨?_, ?_, ?_, ?_⟩
  · intro ls
    refine ⟨?_, ?_, ?_, ?_, ?_, ?_, ?_⟩ <;>
      simp [mergeLayout, majorityB]
  · intro p q h
    cases p <;> cases q <;> simp_all [majorityB]
  · intro bs h3 h2
    rcases List.length_eq_three.1 h3 with ⟨a, b, c, rfl⟩
    cases a <;> cases b <;> cases c <;> simp_all [majorityB]
  · intro a b c ha hb hc
    simp [mergeLayout, majorityB, ha, hb, hc]

/-- Witness for claim C1 at concrete batches: a one-against-one split
merges to false, a two-of-three vote merges to true, and the spec example
with `has_cta` holds. -/
theorem claim1_witness :
    majorityB [true, false] = false
      ∧ majorityB [true, true, false] = true
      ∧ (mergeLayout [lpAllTrue, lpAllTrue, lpAllFalse]).has_cta = true :=
  ⟨claim1_consensus_majority.2.1 true false (by decide),
    claim1_consensus_majority.2.2.1 [true, true, false] (by decide) (by decide),
    claim1_consensus_majority.2.2.2 lpAllTrue lpAllTrue lpAllFalse (by decide) (by decide)
      (by decide)⟩

/-! ## Palette hex invariant (claim C3) -/

theorem isHexDigit_hexDigitChar : ∀ n < 16, isHexDigit (hexDigitChar n) = true := by
  decide

theorem isHexDigit_byteHex (v : Fin 256) : ∀ c ∈ byteHex v, isHexDigit c = true := by
  intro c hc
  have h16a : v.val / 16 < 16 := by omega
  have h16b : v.val % 16 < 16 := by omega
  rcases List.mem_cons.1 hc with h | h
  · exact h ▸ isHexDigit_hexDigitChar _ h16a
  · rcases List.mem_singleton.1 h with rfl
    exact isHexDigit_hexDigitChar _ h16b

theorem toHex_valid (c : Color) : isValidHexColor (toHex c) = true := by
  simp only [toHex, isValidHexColor]
  rw [Bool.and_eq_true, Bool.and_eq_true]
  refine ⟨⟨by decide, ?_⟩, ?_⟩
  · simp [byteHex]
  · rw [List.all_eq_true]
    intro x hx
    rcases List.mem_append.1 hx with h | h
    · rcases List.mem_append.1 h with h | h
      · exact isHexDigit_byteHex _ _ h
      · exact isHexDigit_byteHex _ _ h
    · exact isHexDigit_byteHex _ _ h

theorem validPaletteHex_any (p : ColorPalette) : validPaletteHex p :=
  ⟨toHex_valid _, toHex_valid _, toHex_valid _, toHex_valid _, toHex_valid _⟩

/-- Claim C3: every palette the engine produces — per-site or merged — has
all five semantic roles populated with valid hex color strings, and on a
page without samples the documented fallback defaults are assigned. -/
theorem claim3_palette_hex :
    (∀ samples : List ColorSample, validPaletteHex (extractPalette samples))
      ∧ (∀ ps : List ColorPalette, validPaletteHex (mergePalettes ps))
      ∧ extractPalette [] =
          { primary := defaultPrimary
          , secondary := defaultPrimary
          , accent := defaultPrimary
          , background := defaultBackground
          , text := blackColor } :=
  ⟨fun _ => validPaletteHex_any _, fun _ => validPaletteHex_any _, by decide⟩

/-! ## Typography heading sizes (claim C5) -/

theorem mem_insertDesc {x a : Int} : ∀ {l : List Int}, a ∈ insertDesc x l ↔ a = x ∨ a ∈ l := by
  intro l
  induction l with
  | nil => simp [insertDesc]
  | cons y rest ih =>
    simp only [insertDesc]
    split
    · simp
    · simp only [List.mem_cons, ih]
      tauto

theorem pairwise_insertDesc {x : Int} : ∀ {l : List Int},
    l.Pairwise (fun a b => b ≤ a) → (insertDesc x l).Pairwise (fun a b => b ≤ a) := by
  intro l
  induction l with
  | nil => simp [insertDesc]
  | cons y rest ih =>
    intro h
    rcases List.pairwise_cons.1 h with ⟨hy, hrest⟩
    simp only [insertDesc]
    split
    · rename_i hxy
      refine List.pairwise_cons.2 ⟨?_, h⟩
      intro b hb
      rcases List.mem_cons.1 hb with rfl | hb
      · exact hxy
      · exact le_trans (hy b hb) hxy
    · rename_i hxy
      refine List.pairwise_cons.2 ⟨?_, ih hrest⟩
      intro b hb
      rcases mem_insertDesc.1 hb with rfl | hb
      · omega
      · exact hy b hb

theorem pairwise_sortDesc : ∀ l : List Int, (sortDesc l).Pairwise (fun a b => b ≤ a) := by
  intro l
  induction l with
  | nil => simp [sortDesc]
  | cons x rest ih => exact pairwise_insertDesc ih

theorem chain_dedupTolAux : ∀ (l : List Int) (last : Int),
    (last :: l).Pairwise (fun a b => b ≤ a) →
    List.Chain' (fun a b => b < a) (last :: dedupTolAux last l) := by
  intro l
  induction l with
  | nil =>
    intro last _
    simp [dedupTolAux]
  | cons y rest ih =>
    intro last h
    simp only [dedupTolAux]
    split
    · rename_i hle
      apply ih last
      exact h.sublist (List.cons_sublist_cons.2 (List.sublist_cons_self y rest))
    · rename_i hgt
      have h1 : y < last := by
        rcases List.pairwise_cons.1 h with ⟨hy, _⟩
        have := hy y (List.mem_cons_self y rest)
        omega
      exact List.chain'_cons.2 ⟨h1, ih y (List.pairwise_cons.1 h).2⟩

theorem chain_dedupTol {l : List Int} (h : l.Pairwise (fun a b => b ≤ a)) :
    List.Chain' (fun a b => b < a) (dedupTol l) := by
  cases l with
  | nil => simp [dedupTol]
  | cons x rest => exact chain_dedupTolAux rest x h

/-- The guarded size list is always non-empty and strictly decreasing. -/
theorem sizes_good (m : List Int) :
    0 < (headingSizesOrDefault (dedupTol (sortDesc m))).length
      ∧ List.Chain' (fun a b => b < a) (headingSizesOrDefault (dedupTol (sortDesc m))) := by
  unfold headingSizesOrDefault
  split
  · refine ⟨by decide, ?_⟩
    unfold defaultHeadingSizes
    refine List.chain'_cons.2 ⟨by norm_num, List.chain'_cons.2 ⟨by norm_num, ?_⟩⟩
    exact List.chain'_singleton 24
  · rename_i hne
    exact ⟨List.length_pos.2 hne, chain_dedupTol (pairwise_sortDesc _)⟩

/-- Claim C5: every `Typography` the engine produces — per-site or merged —
has a non-empty `heading_sizes` sequence sorted strictly descending (the
1px-tolerance deduplication leaves strictly decreasing sizes). -/
theorem claim5_heading_sizes :
    (∀ headingPool bodyPool : List FontSample,
        0 < (extractTypography headingPool bodyPool).heading_sizes.length
        ∧ List.Chain' (fun a b => b < a) (extractTypography headingPool bodyPool).heading_sizes)
      ∧ (∀ ts : List Typography,
        0 < (mergeTypography ts).heading_sizes.length
        ∧ List.Chain' (fun a b => b < a) (mergeTypography ts).heading_sizes) := by
  constructor
  · intro headingPool bodyPool
    exact sizes_good _
  · intro ts
    exact sizes_good _

/-! ## Contrast invariant (claim C6) -/

theorem bestBy_mem {α : Type} {score : α → Nat} : ∀ {l : List α} {x : α},
    bestBy score l = some x → x ∈ l := by
  intro l
  induction l with
  | nil =>
    intro x h
    simp [bestBy] at h
  | cons a rest ih =>
    intro x h
    cases hb : bestBy score rest with
    | none =>
      have hred : bestBy score (a :: rest) = some a := by
        unfold bestBy
        rw [hb]
      rw [hred] at h
      cases h
      exact List.mem_cons_self a rest
    | some y =>
      have hred : bestBy score (a :: rest) = if score a < score y then some y else some a := by
        unfold bestBy
        rw [hb]
      rw [hred] at h
      split at h
      · cases h
        exact List.mem_cons_of_mem a (ih hb)
      · cases h
        exact List.mem_cons_self a rest

theorem lumScaled_le (c : Color) : lumScaled c ≤ 2550000 := by
  unfold lumScaled
  have hr := c.r.isLt
  have hg := c.g.isLt
  have hb := c.b.isLt
  omega

theorem contrastRatio_eq (a b : Color) :
    contrastRatio a b =
      (((max (lumScaled a) (lumScaled b) : ℕ) : ℚ) + 127500)
        / (((min (lumScaled a) (lumScaled b) : ℕ) : ℚ) + 127500) := by
  unfold contrastRatio luminance
  have hmax : max ((lumScaled a : ℚ) / 2550000) ((lumScaled b : ℚ) / 2550000)
      = ((max (lumScaled a) (lumScaled b) : ℕ) : ℚ) / 2550000 := by
    rw [max_div_div_right (by norm_num : (0:ℚ) ≤ 2550000), Nat.cast_max]
  have hmin : min ((lumScaled a : ℚ) / 2550000) ((lumScaled b : ℚ) / 2550000)
      = ((min (lumScaled a) (lumScaled b) : ℕ) : ℚ) / 2550000 := by
    rw [min_div_div_right (by norm_num : (0:ℚ) ≤ 2550000), Nat.cast_min]
  rw [hmax, hmin]
  have hm0 : (0:ℚ) ≤ ((min (lumScaled a) (lumScaled b) : ℕ) : ℚ) := Nat.cast_nonneg _
  have hne1 : ((min (lumScaled a) (lumScaled b) : ℕ) : ℚ) / 2550000 + 1 / 20 ≠ 0 := by positivity
  have hne2 : ((min (lumScaled a) (lumScaled b) : ℕ) : ℚ) + 127500 ≠ 0 := by positivity
  field_simp
  ring

theorem contrastGeMin_iff (a b : Color) :
    contrastGeMin a b = true ↔ minContrast ≤ contrastRatio a b := by
  rw [contrastRatio_eq]
  unfold contrastGeMin minContrast
  rw [decide_eq_true_iff]
  have hm : (0:ℚ) < ((min (lumScaled a) (lumScaled b) : ℕ) : ℚ) + 127500 := by positivity
  rw [div_le_div_iff₀ (by norm_num : (0:ℚ) < 2) hm]
  constructor
  · intro h
    have h2 : (9:ℚ) * (((min (lumScaled a) (lumScaled b) : ℕ) : ℚ) + 127500)
        ≤ 2 * (((max (lumScaled a) (lumScaled b) : ℕ) : ℚ) + 127500) := by exact_mod_cast h
    linarith
  · intro h
    have h2 : (9:ℚ) * (((min (lumScaled a) (lumScaled b) : ℕ) : ℚ) + 127500)
        ≤ 2 * (((max (lumScaled a) (lumScaled b) : ℕ) : ℚ) + 127500) := by linarith
    exact_mod_cast h2

theorem bw_black_bound {S : ℕ} (h : 127500 * 2677500 ≤ (S + 127500) * (S + 127500)) :
    446250 ≤ S := by
  by_contra hc
  push_neg at hc
  have h1 : S + 127500 ≤ 573749 := by omega
  have h2 : (S + 127500) * (S + 127500) ≤ 573749 * 573749 := Nat.mul_le_mul h1 h1
  omega

theorem bw_white_bound {S : ℕ} (h : (S + 127500) * (S + 127500) < 127500 * 2677500) :
    S ≤ 467500 := by
  by_contra hc
  push_neg at hc
  have h1 : 595001 ≤ S + 127500 := by omega
  have h2 : 595001 * 595001 ≤ (S + 127500) * (S + 127500) := Nat.mul_le_mul h1 h1
  omega

theorem bwFallback_contrast (bg : Color) : minContrast ≤ contrastRatio (bwFallback bg) bg := by
  unfold bwFallback
  split
  · rename_i h
    have hS := bw_black_bound h
    rw [contrastRatio_eq]
    have e1 : lumScaled blackColor = 0 := rfl
    rw [e1, Nat.zero_max, Nat.zero_min]
    have hc : ((446250:ℕ):ℚ) ≤ (lumScaled bg : ℚ) := by exact_mod_cast hS
    unfold minContrast
    rw [div_le_div_iff₀ (by norm_num : (0:ℚ) < 2) (by positivity)]
    push_cast at hc ⊢
    linarith
  · rename_i h
    push_neg at h
    have hS := bw_white_bound h
    rw [contrastRatio_eq]
    have e2 : lumScaled whiteColor = 2550000 := rfl
    rw [e2, max_eq_left (lumScaled_le bg), min_eq_right (lumScaled_le bg)]
    have hc : (lumScaled bg : ℚ) ≤ ((467500:ℕ):ℚ) := by exact_mod_cast hS
    unfold minContrast
    rw [div_le_div_iff₀ (by norm_num : (0:ℚ) < 2) (by positivity)]
    push_cast at hc ⊢
    linarith

theorem chooseText_contrast (cs : List Cluster) (bg : Color) :
    minContrast ≤ contrastRatio (chooseText cs bg) bg := by
  unfold chooseText
  cases hb : bestBy (·.wText)
      (cs.filter fun c => decide (0 < c.wText) && contrastGeMin c.color bg) with
  | none => exact bwFallback_contrast bg
  | some c =>
    have hmem := bestBy_mem hb
    have hp := (List.mem_filter.1 hmem).2
    rw [Bool.and_eq_true] at hp
    exact (contrastGeMin_iff _ _).1 hp.2

/-- Claim C6: the text and background roles chosen by the Palette Extractor
always have a contrast ratio at or above the configured minimum; the
black/white fallback itself always reaches the minimum, so the invariant
holds even when no sampled text color qualifies. -/
theorem claim6_contrast :
    (∀ samples : List ColorSample,
        minContrast ≤ contrastRatio (extractPalette samples).text (extractPalette samples).background)
      ∧ (∀ bg : Color,
        (bwFallback bg = blackColor ∨ bwFallback bg = whiteColor)
        ∧ minContrast ≤ contrastRatio (bwFallback bg) bg) := by
  constructor
  · intro samples
    exact chooseText_contrast (clusterSamples samples) (chooseBackground (clusterSamples samples))
  · intro bg
    refine ⟨?_, bwFallback_contrast bg⟩
    unfold bwFallback
    split
    · exact Or.inl rfl
    · exact Or.inr rfl

/-! ## Failure policy, source URLs and determinism (claims C2, C4, C8) -/

theorem map_fst_renderBatch (urls : List Str) (render : Str → Option PageSignals) :
    (renderBatch urls render).map (·.1) = urls.filter (fun u => (render u).isSome) := by
  unfold renderBatch
  induction urls with
  | nil => rfl
  | cons u rest ih =>
    cases hr : render u with
    | none => simp [List.filterMap_cons, List.filter_cons, hr, ih]
    | some p => simp [List.filterMap_cons, List.filter_cons, hr, ih]

theorem renderBatch_eq_nil (urls : List Str) (render : Str → Option PageSignals) :
    renderBatch urls render = [] ↔ ∀ u ∈ urls, render u = none := by
  unfold renderBatch
  rw [List.filterMap_eq_nil_iff]
  constructor
  · intro h u hu
    have := h u hu
    cases hr : render u with
    | none => rfl
    | some p => rw [hr] at this; simp at this
  · intro h u hu
    rw [h u hu]
    rfl

/-- Claim C4: whenever analysis succeeds, `source_urls` is exactly the
subsequence of requested URLs that rendered successfully, in input order,
with failed URLs omitted. -/
theorem claim4_source_urls (urls : List Str) (render : Str → Option PageSignals)
    (da : DesignAnalysis) (h : analyze urls render = .ok da) :
    da.source_urls = urls.filter (fun u => (render u).isSome)
      ∧ da.source_urls.Sublist urls := by
  unfold analyze at h
  split at h
  · exact absurd h (by simp)
  · split at h
    · exact absurd h (by simp)
    · cases h
      have hsrc : (buildAnalysis (renderBatch urls render)).source_urls
          = (renderBatch urls render).map (·.1) := rfl
      rw [hsrc, map_fst_renderBatch]
      exact ⟨rfl, List.filter_sublist urls⟩

/-- Witness for claim C4: of three requested URLs one fails to render, so
`source_urls` has exactly the two surviving URLs. -/
theorem claim4_witness :
    designFixture.source_urls = urlsFixture.filter (fun u => (renderFixture u).isSome)
      ∧ designFixture.source_urls.Sublist urlsFixture
      ∧ designFixture.source_urls.length = 2 := by
  have h : analyze urlsFixture renderFixture = .ok designFixture := rfl
  have hc := claim4_source_urls urlsFixture renderFixture designFixture h
  exact ⟨hc.1, hc.2, by decide⟩

/-- Claim C2, amended: the engine either returns a fully-populated
`DesignAnalysis` (whenever at least one URL renders) or fails with a single
failure reason, failing with the "no analyzable sources" condition when all
URLs fail; the client returns the `design_analysis` field of a successful
response and, for a non-ok response, throws an error whose message is the
body `detail` or `message` field when present and non-empty, the HTTP status
text when the body is not parseable JSON, and the generic
`"An error occurred"` otherwise. -/
theorem claim2_failure_policy :
    (∀ (urls : List Str) (render : Str → Option PageSignals),
        (∃ u ∈ urls, (render u).isSome = true) →
        ∃ da, analyze urls render = .ok da ∧ validPaletteHex da.colors
          ∧ 0 < da.typography.heading_sizes.length)
      ∧ (∀ (urls : List Str) (render : Str → Option PageSignals),
        urls ≠ [] → (∀ u ∈ urls, render u = none) →
        analyze urls render = .error msgAllFailed)
      ∧ (∀ r : ApiResponse, r.ok = true → ∀ d, r.body = some d →
        analyzeUrls r = .ok d.design_analysis)
      ∧ (∀ r : ApiResponse, r.ok = false →
        analyzeUrls r = .error (.api
          (match r.body with
            | some d => jsOrElse d.detail (jsOrElse d.message defaultErrorMessage)
            | none => r.statusText)
          r.status)) := by
  refine ⟨?_, ?_, ?_, ?_⟩
  · rintro urls render ⟨u, hu, hsome⟩
    have hne : urls ≠ [] := by
      intro h0
      subst h0
      exact absurd hu (List.not_mem_nil u)
    have hbne : renderBatch urls render ≠ [] := by
      intro h0
      have := (renderBatch_eq_nil urls render).1 h0 u hu
      rw [this] at hsome
      simp at hsome
    refine ⟨buildAnalysis (renderBatch urls render), ?_, validPaletteHex_any _, ?_⟩
    · unfold analyze
      rw [if_neg hne, if_neg hbne]
    · exact (sizes_good _).1
  · intro urls render hne hall
    unfold analyze
    rw [if_neg hne, if_pos ((renderBatch_eq_nil urls render).2 hall)]
  · intro r hok d hd
    simp [analyzeUrls, handleResponse, hok, hd, Except.map]
  · intro r hok
    simp [analyzeUrls, handleResponse, hok, Except.map]

/-- Counterexample to claim C2 as stated: on a non-ok response whose body is
valid JSON without `detail` and `message` fields, the client throws the
generic `"An error occurred"` message, not the HTTP status text as the claim
asserts. -/
theorem claim2_counterexample :
    analyzeUrls responseBad = .error (.api defaultErrorMessage 502)
      ∧ defaultErrorMessage ≠ responseBad.statusText := by
  exact ⟨rfl, by decide⟩

/-- Witness for claim C2 at concrete batches and responses. -/
theorem claim2_witness :
    (∃ da, analyze urlsFixture renderFixture = .ok da ∧ validPaletteHex da.colors
      ∧ 0 < da.typography.heading_sizes.length)
      ∧ analyze [urlA] (fun _ => none) = .error msgAllFailed
      ∧ analyzeUrls responseOkFixture = .ok (some (buildAnalysis []))
      ∧ analyzeUrls responseBad = .error (.api defaultErrorMessage 502) :=
  ⟨claim2_failure_policy.1 urlsFixture renderFixture ⟨urlA, by decide, by decide⟩,
    claim2_failure_policy.2.1 [urlA] (fun _ => none) (by decide) (fun _ _ => rfl),
    claim2_failure_policy.2.2.1 responseOkFixture rfl _ rfl,
    claim2_failure_policy.2.2.2 responseBad rfl⟩

/-- Claim C8: the engine is deterministic over its rendered inputs — two
runs over rendering ports that agree on the batch produce equal results,
hence byte-identical serialized output. -/
theorem claim8_deterministic (urls : List Str) (r₁ r₂ : Str → Option PageSignals)
    (h : ∀ u ∈ urls, r₁ u = r₂ u) :
    analyze urls r₁ = analyze urls r₂
      ∧ serializeResult (analyze urls r₁) = serializeResult (analyze urls r₂) := by
  have hrb : renderBatch urls r₁ = renderBatch urls r₂ := by
    unfold renderBatch
    exact List.filterMap_congr (fun u hu => by rw [h u hu])
  have heq : analyze urls r₁ = analyze urls r₂ := by
    unfold analyze
    rw [hrb]
  exact ⟨heq, by rw [heq]⟩

/-- Witness for claim C8: two distinct rendering ports agreeing on the
fixture batch give identical, byte-identical results. -/
theorem claim8_witness :
    analyze urlsFixture renderFixture = analyze urlsFixture renderFixtureB
      ∧ serializeResult (analyze urlsFixture renderFixture)
        = serializeResult (analyze urlsFixture renderFixtureB) :=
  claim8_deterministic urlsFixture renderFixture renderFixtureB (by decide)

end LandingForge
